import Mathlib

/-!
Shallow embedding of the privacy / data-retention subsystem of the
TalentScout Hiring-Assistant repository
(`talentscout-chatbot/utils/data_handler.py`, class `DataHandler`).

Modelling conventions:

* Python strings are Lean `String`s; Python `bytes` are `List Nat` with every
  element `< 256`.
* The third-party Fernet cipher (together with `str.encode`/`bytes.decode`)
  is modelled by the abstract `Cipher` structure below; its `round_trip`
  field is the library's documented contract.  `encrypt s = none` models an
  exception raised inside `cipher_suite.encrypt` (the `except` branch of
  `_encrypt_data`), and likewise for `decrypt`.
* `base64.b64encode` / `base64.b64decode` are implemented concretely
  (standard RFC 4648 alphabet with `=` padding); a failing `b64decode`
  (result `none`) models the `binascii` exception caught by `_decrypt_data`.
* The filesystem is modelled as explicit lists of named files inside the
  handler state; `os.remove` / file-write failures (OSError and friends) are
  modelled by the environment predicates `removeFails` / `writeFails` on the
  file's path.  File permissions (`os.chmod`) are outside the model.
* `datetime` values are modelled as `Int` (days since an arbitrary epoch, so
  that `retention_days` subtracts directly); `strftime('%Y%m%d_%H%M%S')`
  is the abstract `fmtTime` field of the context.
-/

namespace TalentScout

/-- Index into the base64 alphabet `A-Z a-z 0-9 + /`, as the character's
byte value (from `base64.b64encode`). -/
def encChar (n : Nat) : Char :=
  if n < 26 then Char.ofNat (65 + n)
  else if n < 52 then Char.ofNat (97 + (n - 26))
  else if n < 62 then Char.ofNat (48 + (n - 52))
  else if n = 62 then '+'
  else '/'

/-- Inverse base64 alphabet lookup; `none` for a character outside the
alphabet (which makes `base64.b64decode` raise). -/
def decChar (c : Char) : Option Nat :=
  let v := c.toNat
  if 65 ≤ v ∧ v ≤ 90 then some (v - 65)
  else if 97 ≤ v ∧ v ≤ 122 then some (v - 97 + 26)
  else if 48 ≤ v ∧ v ≤ 57 then some (v - 48 + 52)
  else if c = '+' then some 62
  else if c = '/' then some 63
  else none

theorem decChar_encChar : ∀ n, n < 64 → decChar (encChar n) = some n := by
  decide

theorem encChar_ne_pad (n : Nat) (h : n < 64) : encChar n ≠ '=' := by
  intro he
  have h1 := decChar_encChar n h
  rw [he] at h1
  simp [decChar] at h1

/-- Model of `base64.b64encode` on a byte list, producing the character list
of the encoded string (groups of 3 bytes become 4 alphabet characters; a
trailing group of 1 or 2 bytes is padded with `=`). -/
def b64encode : List Nat → List Char
  | [] => []
  | [a] => [encChar (a / 4), encChar (a % 4 * 16), '=', '=']
  | [a, b] => [encChar (a / 4), encChar (a % 4 * 16 + b / 16), encChar (b % 16 * 4), '=']
  | a :: b :: c :: rest =>
      encChar (a / 4) :: encChar (a % 4 * 16 + b / 16) ::
      encChar (b % 16 * 4 + c / 64) :: encChar (c % 64) :: b64encode rest

/-- Model of `base64.b64decode`: `none` models the decoding exception on
malformed input. -/
def b64decode : List Char → Option (List Nat)
  | [] => some []
  | w :: x :: y :: z :: rest =>
      if y = '=' ∧ z = '=' ∧ rest = [] then
        match decChar w, decChar x with
        | some a, some b => some [a * 4 + b / 16]
        | _, _ => none
      else if z = '=' ∧ rest = [] then
        match decChar w, decChar x, decChar y with
        | some a, some b, some c => some [a * 4 + b / 16, b % 16 * 16 + c / 4]
        | _, _, _ => none
      else
        match decChar w, decChar x, decChar y, decChar z, b64decode rest with
        | some a, some b, some c, some d, some bs =>
            some ((a * 4 + b / 16) :: (b % 16 * 16 + c / 4) :: (c % 4 * 64 + d) :: bs)
        | _, _, _, _, _ => none
  | _ => none

theorem div_base (k x y : Nat) (hk : 0 < k) (hy : y < k) : (x * k + y) / k = x := by
  rw [Nat.add_comm, Nat.mul_comm, Nat.add_mul_div_left _ _ hk, Nat.div_eq_of_lt hy,
    Nat.zero_add]

theorem mod_base (k x y : Nat) (hy : y < k) : (x * k + y) % k = y := by
  rw [Nat.add_comm, Nat.mul_comm, Nat.add_mul_mod_self_left, Nat.mod_eq_of_lt hy]

theorem mul_div_self_base (k x : Nat) (hk : 0 < k) : x * k / k = x := by
  have h := div_base k x 0 hk hk
  simpa using h

theorem b64_round_trip : ∀ bs : List Nat, (∀ b ∈ bs, b < 256) →
    b64decode (b64encode bs) = some bs := by
  intro bs
  induction bs using b64encode.induct with
  | case1 =>
      intro _; rfl
  | case2 a =>
      intro hb
      have ha : a < 256 := hb a (by simp)
      have h1 : a / 4 < 64 := by omega
      have h2 : a % 4 * 16 < 64 := by omega
      rw [b64encode, b64decode, if_pos ⟨rfl, rfl, rfl⟩, decChar_encChar _ h1,
        decChar_encChar _ h2]
      refine congrArg some ?_
      rw [mul_div_self_base 16 (a % 4) (by norm_num)]
      have : a / 4 * 4 + a % 4 = a := by omega
      rw [this]
  | case3 a b =>
      intro hb
      have ha : a < 256 := hb a (by simp)
      have hbb : b < 256 := hb b (by simp)
      have h1 : a / 4 < 64 := by omega
      have h2 : a % 4 * 16 + b / 16 < 64 := by omega
      have h3 : b % 16 * 4 < 64 := by omega
      rw [b64encode, b64decode, if_neg (by
        intro hcon
        exact encChar_ne_pad _ h3 hcon.1)]
      rw [if_pos ⟨rfl, rfl⟩]
      rw [decChar_encChar _ h1, decChar_encChar _ h2, decChar_encChar _ h3]
      refine congrArg some ?_
      rw [div_base 16 (a % 4) (b / 16) (by norm_num) (by omega),
        mod_base 16 (a % 4) (b / 16) (by omega),
        mul_div_self_base 4 (b % 16) (by norm_num)]
      have e1 : a / 4 * 4 + a % 4 = a := by omega
      have e2 : b / 16 * 16 + b % 16 = b := by omega
      rw [e1, e2]
  | case4 a b c rest ih =>
      intro hb
      have ha : a < 256 := hb a (by simp)
      have hbb : b < 256 := hb b (by simp)
      have hc : c < 256 := hb c (by simp)
      have hrest : ∀ x ∈ rest, x < 256 := by
        intro x hx; exact hb x (by simp [hx])
      have h1 : a / 4 < 64 := by omega
      have h2 : a % 4 * 16 + b / 16 < 64 := by omega
      have h3 : b % 16 * 4 + c / 64 < 64 := by omega
      have h4 : c % 64 < 64 := by omega
      rw [b64encode, b64decode, if_neg (by
        intro hcon
        exact encChar_ne_pad _ h3 hcon.1)]
      rw [if_neg (by
        intro hcon
        exact encChar_ne_pad _ h4 hcon.1)]
      rw [decChar_encChar _ h1, decChar_encChar _ h2, decChar_encChar _ h3,
        decChar_encChar _ h4, ih hrest]
      refine congrArg some ?_
      rw [div_base 16 (a % 4) (b / 16) (by norm_num) (by omega),
        mod_base 16 (a % 4) (b / 16) (by omega),
        div_base 4 (b % 16) (c / 64) (by norm_num) (by omega),
        mod_base 4 (b % 16) (c / 64) (by omega)]
      have e1 : a / 4 * 4 + a % 4 = a := by omega
      have e2 : b / 16 * 16 + b % 16 = b := by omega
      have e3 : c / 64 * 64 + c % 64 = c := by omega
      rw [e1, e2, e3]

/-- Abstract model of the third-party `cryptography.fernet.Fernet` cipher
held in `self.cipher_suite`, composed with Python's `str.encode` /
`bytes.decode`.  `encrypt s = none` models an exception raised while
encrypting (the `except` branch of `_encrypt_data`); `decrypt bs = none`
models `InvalidToken` or a decoding exception.  `round_trip` is the
library's documented contract (decryption inverts encryption under the
process key), and `ct_bytes` records that ciphertexts are byte strings. -/
structure Cipher where
  encrypt : String → Option (List Nat)
  decrypt : List Nat → Option String
  round_trip : ∀ s ct, encrypt s = some ct → decrypt ct = some s
  ct_bytes : ∀ s ct, encrypt s = some ct → ∀ b ∈ ct, b < 256
  ct_ne : ∀ s ct, encrypt s = some ct → ct ≠ []

/-- Environment of a `DataHandler`: the Fernet cipher, the external
`hashlib.sha256(·).hexdigest()` function, `json.dumps` / `json.loads` for the
conversation history, the `strftime('%Y%m%d_%H%M%S')` clock formatting, and
the fault model for filesystem writes and removals (`True` on a path means
the corresponding `open(..,'w')`/`json.dump` or `os.remove` raises). -/
structure Ctx where
  cipher : Cipher
  sha256hex : String → String
  dumps : List (String × String) → String
  loads : String → Option (List (String × String))
  fmtTime : Int → String
  writeFails : String → Bool
  removeFails : String → Bool

/-- Model of `DataHandler._encrypt_data`: encrypt, base64-encode; on an
encryption exception return the input unencrypted (source line 47). -/
def _encrypt_data (ctx : Ctx) (data : String) : String :=
  match ctx.cipher.encrypt data with
  | some ct => String.mk (b64encode ct)
  | none => data

/-- Model of `DataHandler._decrypt_data`: base64-decode, decrypt; on any
exception return the input as-is (source line 57). -/
def _decrypt_data (ctx : Ctx) (encrypted_data : String) : String :=
  match b64decode encrypted_data.data with
  | none => encrypted_data
  | some bs =>
    match ctx.cipher.decrypt bs with
    | some pt => pt
    | none => encrypted_data

/-- Model of `DataHandler.hash_email`: truncated sha256 hex digest. -/
def hash_email (ctx : Ctx) (email : String) : String :=
  (ctx.sha256hex email).take 16

/-- Model of `DataHandler.hash_phone`: truncated sha256 hex digest. -/
def hash_phone (ctx : Ctx) (phone : String) : String :=
  (ctx.sha256hex phone).take 12

/-- Helper: when the cipher encrypts successfully, `_decrypt_data` inverts
`_encrypt_data`. -/
theorem decrypt_encrypt (ctx : Ctx) (s : String)
    (h : (ctx.cipher.encrypt s).isSome) :
    _decrypt_data ctx (_encrypt_data ctx s) = s := by
  rcases hct : ctx.cipher.encrypt s with _ | ct
  · rw [hct] at h; simp at h
  · have hb : ∀ b ∈ ct, b < 256 := ctx.cipher.ct_bytes s ct hct
    have hdec : b64decode (String.mk (b64encode ct)).data = some ct := by
      rw [show (String.mk (b64encode ct)).data = b64encode ct from rfl]
      exact b64_round_trip ct hb
    simp only [_encrypt_data, hct, _decrypt_data, hdec, ctx.cipher.round_trip s ct hct]

/-- Python's `s.startswith(p)` on our string model. -/
def strStartsWith (s p : String) : Bool := p.data.isPrefixOf s.data

/-- Python's `s.endswith(p)` on our string model. -/
def strEndsWith (s p : String) : Bool := p.data.isSuffixOf s.data

/-- The `CandidateInfo` dataclass of `app.py` (immutable snapshot passed to
`save_candidate_data`). -/
structure CandidateInfo where
  full_name : String
  email : String
  phone : String
  years_experience : String
  desired_positions : String
  current_location : String
  tech_stack : List String
  deriving DecidableEq

/-- The `candidate_info` sub-dictionary of the JSON written by
`save_candidate_data` (lines 81-91). -/
structure StoredCandidateInfo where
  full_name_encrypted : Option String
  email_encrypted : Option String
  phone_encrypted : Option String
  current_location_encrypted : Option String
  years_experience : String
  desired_positions : String
  tech_stack : List String
  deriving DecidableEq

/-- The `privacy_hashes` sub-dictionary (lines 94-97). -/
structure PrivacyHashes where
  email_hash : Option String
  phone_hash : Option String
  deriving DecidableEq

/-- The full JSON document written to `data/encrypted/candidate_<id>.json`.
The always-`None` metadata entries (`ip_address_hash`, `user_agent_hash`,
`session_duration`) are omitted; `completion_status` is the only metadata
field ever read back. -/
structure StoredRecord where
  session_id : String
  timestamp : Int
  data_version : String
  privacy_compliant : Bool
  candidate_info : StoredCandidateInfo
  privacy_hashes : PrivacyHashes
  completion_status : String
  conversation_history_encrypted : Option String
  deriving DecidableEq

/-- Content of a file in the `encrypted/` directory: either a parseable
record, or one on which `json.load` / `datetime.fromisoformat` raises
(corrupt JSON or missing/garbled timestamp). -/
inductive StoredFile where
  | valid (record : StoredRecord)
  | corrupt
  deriving DecidableEq

/-- A named file in the `encrypted/` directory. -/
structure EncFile where
  name : String
  content : StoredFile
  deriving DecidableEq

/-- The decrypted `candidate_info` dictionary produced by
`load_candidate_data` (lines 151-159). -/
structure LoadedCandidateInfo where
  full_name : Option String
  email : Option String
  phone : Option String
  current_location : Option String
  years_experience : String
  desired_positions : String
  tech_stack : List String
  deriving DecidableEq

/-- The `export_data` document written by `export_candidate_data`
(lines 180-198); the constant `privacy_notice` block is omitted.
`personal_information` is the decrypted candidate info returned by the
load that the export performs. -/
structure ExportContent where
  exported_at : Int
  session_id : String
  format : String
  personal_information : LoadedCandidateInfo
  total_messages : Nat
  completion_status : String
  deriving DecidableEq

/-- A named file in the `exports/` directory, with its filesystem
modification time (used by the export sweep in `cleanup_old_data`). -/
structure ExportFile where
  name : String
  mtime : Int
  content : ExportContent
  deriving DecidableEq

/-- The metadata dictionary attached to an audit entry, one shape per call
site of `_log_data_activity`. -/
inductive LogMeta where
  | empty
  | saveMeta (has_personal_info has_contact_info : Bool) (tech_stack_count : Nat)
  | deleteMeta (reason : String)
  | autoDeleteMeta (retention_days : Int) (file_age_days : Int)
  | exportMeta (format : String)
  deriving DecidableEq

/-- One entry of `data/activity_log.json` (lines 293-298). -/
structure LogEntry where
  timestamp : Int
  activity : String
  session_id : String
  metadata : LogMeta
  deriving DecidableEq

/-- The whole on-disk state owned by a `DataHandler`: the `encrypted/`
directory, the `exports/` directory and the audit log. -/
structure DHState where
  encDir : List EncFile
  exportsDir : List ExportFile
  log : List LogEntry
  deriving DecidableEq

/-- Model of `DataHandler._log_data_activity` (lines 290-319): load the log,
append the entry, keep only the last 1000 entries, write back.  A write
failure is caught inside the method, leaving the persisted log unchanged. -/
def logActivity (ctx : Ctx) (now : Int) (log : List LogEntry)
    (activity session_id : String) (meta : LogMeta) : List LogEntry :=
  if ctx.writeFails "activity_log.json" then log
  else
    let l := log ++ [⟨now, activity, session_id, meta⟩]
    if l.length > 1000 then l.drop (l.length - 1000) else l

/-- Name of the primary record file for a session (line 115). -/
def candidateFileName (session_id : String) : String :=
  "candidate_" ++ session_id ++ ".json"

/-- Writing a file with `open(name, 'w')`: truncate-and-replace if a file of
that name exists, create it otherwise. -/
def writeEnc (dir : List EncFile) (name : String) (content : StoredFile) :
    List EncFile :=
  if dir.any (fun f => f.name = name) then
    dir.map (fun f => if f.name = name then ⟨name, content⟩ else f)
  else dir ++ [⟨name, content⟩]

/-- The record document built by `save_candidate_data` (lines 71-112): the
four identifying fields are encrypted when non-empty (Python truthiness) and
stored as `None` otherwise, the hashes likewise, the experience / positions /
tech-stack fields are stored in the clear, and `completion_status` derives
from the presence of a transcript. -/
def savedRecord (ctx : Ctx) (now : Int) (candidate_info : CandidateInfo)
    (session_id : String) (conversation_history : List (String × String)) :
    StoredRecord :=
  { session_id := session_id
    timestamp := now
    data_version := "1.0"
    privacy_compliant := true
    candidate_info :=
      { full_name_encrypted :=
          if candidate_info.full_name = "" then none
          else some (_encrypt_data ctx candidate_info.full_name)
        email_encrypted :=
          if candidate_info.email = "" then none
          else some (_encrypt_data ctx candidate_info.email)
        phone_encrypted :=
          if candidate_info.phone = "" then none
          else some (_encrypt_data ctx candidate_info.phone)
        current_location_encrypted :=
          if candidate_info.current_location = "" then none
          else some (_encrypt_data ctx candidate_info.current_location)
        years_experience := candidate_info.years_experience
        desired_positions := candidate_info.desired_positions
        tech_stack := candidate_info.tech_stack }
    privacy_hashes :=
      { email_hash :=
          if candidate_info.email = "" then none
          else some (hash_email ctx candidate_info.email)
        phone_hash :=
          if candidate_info.phone = "" then none
          else some (hash_phone ctx candidate_info.phone) }
    completion_status :=
      if conversation_history = [] then "incomplete" else "complete"
    conversation_history_encrypted :=
      if conversation_history = [] then none
      else some (_encrypt_data ctx (ctx.dumps conversation_history)) }

/-- Model of `DataHandler.save_candidate_data` (lines 67-133).  A failing
file write raises, is caught by the outer handler and yields `False` (the
truncation a partial write may leave behind is abstracted away); otherwise
the record is written, a SAVE entry is logged (logging failures are
swallowed inside `_log_data_activity`) and the call returns `True`. -/
def save_candidate_data (ctx : Ctx) (now : Int) (st : DHState)
    (candidate_info : CandidateInfo) (session_id : String)
    (conversation_history : List (String × String)) : Bool × DHState :=
  let filename := candidateFileName session_id
  if ctx.writeFails ("encrypted/" ++ filename) then (false, st)
  else
    let r := savedRecord ctx now candidate_info session_id conversation_history
    let encDir' := writeEnc st.encDir filename (.valid r)
    let log' := logActivity ctx now st.log "SAVE" session_id
      (.saveMeta (!(candidate_info.full_name == ""))
        (!(candidate_info.email == "")) candidate_info.tech_stack.length)
    (true, ⟨encDir', st.exportsDir, log'⟩)

/-- Looking a file up in the `encrypted/` directory (`os.path.exists` plus
`open(..., 'r')`). -/
def findFile (dir : List EncFile) (name : String) : Option EncFile :=
  dir.find? (fun f => f.name = name)

/-- The dictionary returned by `load_candidate_data`: the stored document
with `candidate_info` replaced by its decrypted form and the transcript
decrypted and parsed when present. -/
structure LoadedData where
  session_id : String
  timestamp : Int
  data_version : String
  privacy_compliant : Bool
  candidate_info : LoadedCandidateInfo
  privacy_hashes : PrivacyHashes
  completion_status : String
  conversation_history : Option (List (String × String))
  deriving DecidableEq

/-- Decryption of one stored identifying field on load:
`self._decrypt_data(d[k]) if d.get(k) else None` — `None` and the empty
string are both falsy. -/
def decField (ctx : Ctx) : Option String → Option String
  | some e => if e = "" then none else some (_decrypt_data ctx e)
  | none => none

/-- Model of `DataHandler.load_candidate_data` (lines 135-170): `None` when
the file is absent or unparseable, or when the decrypted transcript fails
`json.loads` (the exception aborts the call before the LOAD entry is
logged); otherwise the decrypted record, with a LOAD entry appended. -/
def load_candidate_data (ctx : Ctx) (now : Int) (st : DHState)
    (session_id : String) : Option LoadedData × DHState :=
  match findFile st.encDir (candidateFileName session_id) with
  | none => (none, st)
  | some f =>
    match f.content with
    | .corrupt => (none, st)
    | .valid r =>
      let lci : LoadedCandidateInfo :=
        { full_name := decField ctx r.candidate_info.full_name_encrypted
          email := decField ctx r.candidate_info.email_encrypted
          phone := decField ctx r.candidate_info.phone_encrypted
          current_location := decField ctx r.candidate_info.current_location_encrypted
          years_experience := r.candidate_info.years_experience
          desired_positions := r.candidate_info.desired_positions
          tech_stack := r.candidate_info.tech_stack }
      let finish : Option (List (String × String)) → Option LoadedData × DHState :=
        fun history =>
          let log' := logActivity ctx now st.log "LOAD" session_id .empty
          (some
            { session_id := r.session_id
              timestamp := r.timestamp
              data_version := r.data_version
              privacy_compliant := r.privacy_compliant
              candidate_info := lci
              privacy_hashes := r.privacy_hashes
              completion_status := r.completion_status
              conversation_history := history },
            { st with log := log' })
      match r.conversation_history_encrypted with
      | none => finish none
      | some enc =>
        match ctx.loads (_decrypt_data ctx enc) with
        | none => (none, st)
        | some msgs => finish (some msgs)

/-- The timestamped export filename of line 201:
`export_<session_id>_<strftime timestamp>.json`. -/
def exportFileName (ctx : Ctx) (session_id : String) (now : Int) : String :=
  "export_" ++ session_id ++ "_" ++ ctx.fmtTime now ++ ".json"

/-- Writing an export file with `open(name, 'w')`: truncate-and-replace an
existing file of that name, create it otherwise; the modification time
becomes the write time. -/
def writeExport (dir : List ExportFile) (name : String) (mtime : Int)
    (content : ExportContent) : List ExportFile :=
  if dir.any (fun f => f.name = name) then
    dir.map (fun f => if f.name = name then ⟨name, mtime, content⟩ else f)
  else dir ++ [⟨name, mtime, content⟩]

/-- Model of `DataHandler.export_candidate_data` (lines 172-211): load the
record (which logs LOAD), build the export document, write it under the
timestamped name, log EXPORT, return the filename; `None` when the load
returns nothing or the write raises. -/
def export_candidate_data (ctx : Ctx) (now : Int) (st : DHState)
    (session_id : String) (export_format : String) :
    Option String × DHState :=
  match load_candidate_data ctx now st session_id with
  | (none, st1) => (none, st1)
  | (some d, st1) =>
    let ename := exportFileName ctx session_id now
    if ctx.writeFails ("exports/" ++ ename) then (none, st1)
    else
      let content : ExportContent :=
        { exported_at := now
          session_id := session_id
          format := export_format
          personal_information := d.candidate_info
          total_messages := (d.conversation_history.getD []).length
          completion_status := d.completion_status }
      let exp' := writeExport st1.exportsDir ename now content
      let log' := logActivity ctx now st1.log "EXPORT" session_id
        (.exportMeta export_format)
      (some ename, ⟨st1.encDir, exp', log'⟩)

/-- The export-removal loop of `delete_candidate_data` (lines 226-229):
remove every export file whose name starts with `export_<session_id>_`.
An `os.remove` failure raises out of the loop (second component `false`),
leaving the failing file and everything after it in place. -/
def removeExports (ctx : Ctx) (session_id : String) :
    List ExportFile → List ExportFile × Bool
  | [] => ([], true)
  | f :: rest =>
    if strStartsWith f.name ("export_" ++ session_id ++ "_") then
      if ctx.removeFails ("exports/" ++ f.name) then (f :: rest, false)
      else removeExports ctx session_id rest
    else
      let p := removeExports ctx session_id rest
      (f :: p.1, p.2)

/-- Model of `DataHandler.delete_candidate_data` (lines 213-237): `False`
when no record file exists (nothing logged); otherwise DELETE is logged
first, then the record file is removed (a failure there is caught by the
outer handler: `False`, record still present), then the session's export
files are removed — an exception in that loop also reaches the outer
handler, so the call returns `False` even though the primary record is
already gone. -/
def delete_candidate_data (ctx : Ctx) (now : Int) (st : DHState)
    (session_id : String) (reason : String) : Bool × DHState :=
  let filename := candidateFileName session_id
  match findFile st.encDir filename with
  | none => (false, st)
  | some _ =>
    let log' := logActivity ctx now st.log "DELETE" session_id
      (.deleteMeta reason)
    if ctx.removeFails ("encrypted/" ++ filename) then
      (false, { st with log := log' })
    else
      let encDir' := st.encDir.filter (fun f => f.name ≠ filename)
      let p := removeExports ctx session_id st.exportsDir
      (p.2, ⟨encDir', p.1, log'⟩)

/-- The filename filter of the cleanup loop (line 248). -/
def isCandidateFile (name : String) : Bool :=
  strStartsWith name "candidate_" && strEndsWith name ".json"

/-- The record-sweep loop of `cleanup_old_data` (lines 247-271), threading
the audit log and returning (count removed, files kept, final log).  A
corrupt file or a failing removal is caught by the per-file handler: the
file stays, the count is unchanged, the loop continues. -/
def sweepEnc (ctx : Ctx) (now cutoff retention_days : Int) :
    List EncFile → List LogEntry → Nat × List EncFile × List LogEntry
  | [], log => (0, [], log)
  | f :: rest, log =>
    if isCandidateFile f.name then
      match f.content with
      | .corrupt =>
        let p := sweepEnc ctx now cutoff retention_days rest log
        (p.1, f :: p.2.1, p.2.2)
      | .valid r =>
        if r.timestamp < cutoff then
          let log1 := logActivity ctx now log "AUTO_DELETE" r.session_id
            (.autoDeleteMeta retention_days (now - r.timestamp))
          if ctx.removeFails ("encrypted/" ++ f.name) then
            let p := sweepEnc ctx now cutoff retention_days rest log1
            (p.1, f :: p.2.1, p.2.2)
          else
            let p := sweepEnc ctx now cutoff retention_days rest log1
            (p.1 + 1, p.2.1, p.2.2)
        else
          let p := sweepEnc ctx now cutoff retention_days rest log
          (p.1, f :: p.2.1, p.2.2)
    else
      let p := sweepEnc ctx now cutoff retention_days rest log
      (p.1, f :: p.2.1, p.2.2)

/-- The export-sweep loop of `cleanup_old_data` (lines 274-282): removes
`export_`-prefixed files whose modification time predates the cutoff.  It
has no per-file handler, so a failing removal aborts the whole loop (the
outer handler then returns the count gathered so far). -/
def sweepExports (ctx : Ctx) (cutoff : Int) :
    List ExportFile → List ExportFile × Bool
  | [] => ([], true)
  | f :: rest =>
    if strStartsWith f.name "export_" then
      if f.mtime < cutoff then
        if ctx.removeFails ("exports/" ++ f.name) then (f :: rest, false)
        else sweepExports ctx cutoff rest
      else
        let p := sweepExports ctx cutoff rest
        (f :: p.1, p.2)
    else
      let p := sweepExports ctx cutoff rest
      (f :: p.1, p.2)

/-- Model of `DataHandler.cleanup_old_data` (lines 239-288): cutoff is
`now - retention_days`; sweep the record files, then the export files, and
return the number of record files removed (which is returned even when the
export sweep aborts). -/
def cleanup_old_data (ctx : Ctx) (now : Int) (st : DHState)
    (retention_days : Int) : Nat × DHState :=
  let cutoff := now - retention_days
  let p := sweepEnc ctx now cutoff retention_days st.encDir st.log
  let q := sweepExports ctx cutoff st.exportsDir
  (p.1, ⟨p.2.1, q.1, p.2.2⟩)

/-- The report produced by `get_privacy_report` (lines 321-374): record
counts, extremal record timestamps, the constant compliance flags, and the
last 10 audit entries. -/
structure PrivacyReport where
  generated_at : Int
  total_records : Nat
  encrypted_records : Nat
  oldest_record : Option Int
  newest_record : Option Int
  encryption_enabled : Bool
  retention_policy_active : Bool
  audit_logging_enabled : Bool
  gdpr_compliant : Bool
  recent_activities : List LogEntry
  deriving DecidableEq

/-- Python's `xs[-n:]`: the last `n` elements. -/
def lastN (n : Nat) (l : List LogEntry) : List LogEntry :=
  l.drop (l.length - n)

/-- Model of `DataHandler.get_privacy_report`.  It never takes the cipher:
the source reads only filenames, the cleartext `timestamp` metadata of each
parseable record (the per-file `try` skips unparseable ones), and the audit
log; `min`/`max` of an empty date list are not taken (fields left `None`).
Note the file filter checks only the `candidate_` name part (line 344). -/
def get_privacy_report (now : Int) (st : DHState) : PrivacyReport :=
  let files := st.encDir.filter (fun f => strStartsWith f.name "candidate_")
  let dates := files.filterMap (fun f =>
    match f.content with
    | .valid r => some r.timestamp
    | .corrupt => none)
  { generated_at := now
    total_records := files.length
    encrypted_records := files.length
    oldest_record := dates.min?
    newest_record := dates.max?
    encryption_enabled := true
    retention_policy_active := true
    audit_logging_enabled := true
    gdpr_compliant := true
    recent_activities := lastN 10 st.log }

/-!  Helper lemmas shared by the claim theorems. -/

theorem find?_map_replace (name : String) (content : StoredFile) :
    ∀ l : List EncFile, l.any (fun f => f.name = name) = true →
      (l.map (fun f => if f.name = name then ⟨name, content⟩ else f)).find?
        (fun f => f.name = name) = some ⟨name, content⟩ := by
  intro l
  induction l with
  | nil => intro h; simp at h
  | cons f t ih =>
      intro h
      by_cases hf : f.name = name
      · simp [List.find?, hf]
      · have ht : t.any (fun f => f.name = name) = true := by
          simp [List.any_cons, hf] at h
          simpa using h
        simp only [List.map_cons, if_neg hf, List.find?]
        rw [decide_eq_false hf]
        exact ih ht

theorem find?_append_new (name : String) (content : StoredFile) :
    ∀ l : List EncFile, l.any (fun f => f.name = name) = false →
      (l ++ [(⟨name, content⟩ : EncFile)]).find? (fun f => f.name = name) =
        some ⟨name, content⟩ := by
  intro l
  induction l with
  | nil => simp [List.find?]
  | cons f t ih =>
      intro h
      rw [List.any_cons, Bool.or_eq_false_iff] at h
      have hf : ¬ f.name = name := of_decide_eq_false h.1
      simp only [List.cons_append, List.find?]
      rw [decide_eq_false hf]
      exact ih h.2

theorem findFile_writeEnc (dir : List EncFile) (name : String)
    (content : StoredFile) :
    findFile (writeEnc dir name content) name = some ⟨name, content⟩ := by
  rw [writeEnc, findFile]
  by_cases h : dir.any (fun f => f.name = name) = true
  · rw [if_pos h]
    exact find?_map_replace name content dir h
  · rw [if_neg h]
    exact find?_append_new name content dir (by simpa using h)

theorem b64encode_ne_nil : ∀ ct : List Nat, ct ≠ [] → b64encode ct ≠ []
  | [], h => absurd rfl h
  | [_], _ => by simp [b64encode]
  | [_, _], _ => by simp [b64encode]
  | _ :: _ :: _ :: _, _ => by simp [b64encode]

theorem decField_encrypt (ctx : Ctx) (x : String)
    (he : (ctx.cipher.encrypt x).isSome) :
    decField ctx (some (_encrypt_data ctx x)) = some x := by
  rcases hct : ctx.cipher.encrypt x with _ | ct
  · rw [hct] at he; simp at he
  · have hne : _encrypt_data ctx x ≠ "" := by
      rw [_encrypt_data, hct]
      intro hmk
      have : b64encode ct = [] := by
        have := congrArg String.data hmk
        simpa using this
      exact b64encode_ne_nil ct (ctx.cipher.ct_ne x ct hct) this
    rw [decField, if_neg hne, decrypt_encrypt ctx x he]

theorem load_valid (ctx : Ctx) (now : Int) (st : DHState)
    (session_id : String) (fl : EncFile) (r : StoredRecord)
    (hfind : findFile st.encDir (candidateFileName session_id) = some fl)
    (hc : fl.content = StoredFile.valid r)
    (hh : r.conversation_history_encrypted = none) :
    load_candidate_data ctx now st session_id =
      (some
        { session_id := r.session_id
          timestamp := r.timestamp
          data_version := r.data_version
          privacy_compliant := r.privacy_compliant
          candidate_info :=
            { full_name := decField ctx r.candidate_info.full_name_encrypted
              email := decField ctx r.candidate_info.email_encrypted
              phone := decField ctx r.candidate_info.phone_encrypted
              current_location :=
                decField ctx r.candidate_info.current_location_encrypted
              years_experience := r.candidate_info.years_experience
              desired_positions := r.candidate_info.desired_positions
              tech_stack := r.candidate_info.tech_stack }
          privacy_hashes := r.privacy_hashes
          completion_status := r.completion_status
          conversation_history := none },
        { st with log := logActivity ctx now st.log "LOAD" session_id .empty }) := by
  simp only [load_candidate_data, hfind, hc, hh]

/-!  Concrete instances used to evaluate the model on closed inputs: a toy
cipher satisfying the Fernet contract (a marker byte followed by the code
points), a cipher that always raises, and concrete contexts and states. -/

def idEncrypt (s : String) : Option (List Nat) :=
  if s.data.all (fun c => c.toNat < 256) then some (90 :: s.data.map Char.toNat)
  else none

def idDecrypt : List Nat → Option String
  | 90 :: bs =>
    if bs.all (fun b => b < 256) then some (String.mk (bs.map Char.ofNat))
    else none
  | _ => none

theorem idDecrypt_idEncrypt (s : String) (ct : List Nat)
    (h : idEncrypt s = some ct) : idDecrypt ct = some s := by
  rw [idEncrypt] at h
  split at h
  case isTrue hall =>
    cases h
    have hb : (s.data.map Char.toNat).all (fun b => b < 256) = true := by
      rw [List.all_eq_true]
      intro b hbm
      rcases List.mem_map.mp hbm with ⟨c, hc, rfl⟩
      exact List.all_eq_true.mp hall c hc
    rw [idDecrypt, if_pos hb]
    congr 1
    rw [List.map_map]
    have : s.data.map (Char.ofNat ∘ Char.toNat) = s.data.map id := by
      apply List.map_congr_left
      intro c _
      exact Char.ofNat_toNat c
    rw [this, List.map_id]
  case isFalse _ => cases h

theorem idEncrypt_bytes (s : String) (ct : List Nat)
    (h : idEncrypt s = some ct) : ∀ b ∈ ct, b < 256 := by
  rw [idEncrypt] at h
  split at h
  case isTrue hall =>
    cases h
    intro b hb
    rcases List.mem_cons.mp hb with hb | hb
    · omega
    · rcases List.mem_map.mp hb with ⟨c, hc, rfl⟩
      exact of_decide_eq_true (List.all_eq_true.mp hall c hc)
  case isFalse _ => cases h

def byteCipher : Cipher where
  encrypt := idEncrypt
  decrypt := idDecrypt
  round_trip := idDecrypt_idEncrypt
  ct_bytes := idEncrypt_bytes
  ct_ne := by
    intro s ct h
    rw [idEncrypt] at h
    split at h
    · cases h; simp
    · cases h

def failCipher : Cipher where
  encrypt := fun _ => none
  decrypt := fun _ => none
  round_trip := by intro s ct h; cases h
  ct_bytes := by intro s ct h; cases h
  ct_ne := by intro s ct h; cases h

def ctx0 : Ctx where
  cipher := byteCipher
  sha256hex := fun s => s
  dumps := fun _ => ""
  loads := fun _ => some []
  fmtTime := fun t => toString t
  writeFails := fun _ => false
  removeFails := fun _ => false

def ctxFail : Ctx := { ctx0 with cipher := failCipher }

def ctxRemExpFail : Ctx :=
  { ctx0 with removeFails := fun p => p == "exports/export_s_1.json" }

def infoSample : CandidateInfo :=
  { full_name := "John"
    email := "a@b.com"
    phone := "555-123-4567"
    years_experience := "3"
    desired_positions := "Engineer"
    current_location := "NYC"
    tech_stack := ["Python", "Docker"] }

def emptyState : DHState := { encDir := [], exportsDir := [], log := [] }

def sampleStored : StoredRecord := savedRecord ctx0 0 infoSample "s" []

def stWithRecord : DHState :=
  { encDir := [⟨candidateFileName "s", .valid sampleStored⟩]
    exportsDir := []
    log := [] }

def sampleExport : ExportContent :=
  { exported_at := 0
    session_id := "s"
    format := "json"
    personal_information :=
      { full_name := none
        email := none
        phone := none
        current_location := none
        years_experience := ""
        desired_positions := ""
        tech_stack := [] }
    total_messages := 0
    completion_status := "incomplete" }

def stC3 : DHState :=
  { encDir := [⟨candidateFileName "s", .valid sampleStored⟩]
    exportsDir := [⟨"export_s_1.json", 0, sampleExport⟩]
    log := [] }

def logEntry0 : LogEntry := ⟨0, "SAVE", "s", .empty⟩

def log1000 : List LogEntry := List.replicate 1000 logEntry0

/-!  Claim theorems. -/

/-- C4: the audit log never holds more than 1000 entries — appending an
entry to a log already holding 1000 entries (with the log file writable)
leaves exactly 1000 entries, evicting the oldest, with the new entry last. -/
theorem audit_log_capped (ctx : Ctx) (now : Int) (log : List LogEntry)
    (activity session_id : String) (meta : LogMeta)
    (hw : ctx.writeFails "activity_log.json" = false)
    (hlen : log.length = 1000) :
    logActivity ctx now log activity session_id meta =
      log.tail ++ [⟨now, activity, session_id, meta⟩] ∧
    (logActivity ctx now log activity session_id meta).length = 1000 := by
  have hmain : logActivity ctx now log activity session_id meta =
      log.tail ++ [⟨now, activity, session_id, meta⟩] := by
    simp only [logActivity, hw, Bool.false_eq_true, if_false]
    have h1 : (log ++ [(⟨now, activity, session_id, meta⟩ : LogEntry)]).length
        = 1001 := by
      simp [hlen]
    rw [if_pos (by rw [h1]; norm_num), h1]
    have h2 : (1001 : Nat) - 1000 = 1 := by norm_num
    rw [h2, List.drop_append_of_le_length (by rw [hlen]; norm_num),
      List.drop_one]
  refine ⟨hmain, ?_⟩
  rw [hmain]
  simp [List.length_tail, hlen]

/-- C4 witness: appending a 1001st entry to a concrete full log keeps the
length at 1000 and evicts the oldest entry. -/
theorem audit_log_capped_witness :
    ctx0.writeFails "activity_log.json" = false ∧
    log1000.length = 1000 ∧
    logActivity ctx0 5 log1000 "LOAD" "t" .empty =
      log1000.tail ++ [⟨5, "LOAD", "t", .empty⟩] ∧
    (logActivity ctx0 5 log1000 "LOAD" "t" .empty).length = 1000 :=
  ⟨rfl, by simp only [log1000, List.length_replicate],
    (audit_log_capped ctx0 5 log1000 "LOAD" "t" .empty rfl
      (by simp only [log1000, List.length_replicate])).1,
    (audit_log_capped ctx0 5 log1000 "LOAD" "t" .empty rfl
      (by simp only [log1000, List.length_replicate])).2⟩

/-- C7: decryption inverts encryption — for a non-empty string on which the
cipher encrypts successfully (which Fernet always does under the fixed
process key), `_decrypt_data (_encrypt_data x) = x`. -/
theorem decrypt_encrypt_id (ctx : Ctx) (x : String) (_hx : x ≠ "")
    (henc : (ctx.cipher.encrypt x).isSome) :
    _decrypt_data ctx (_encrypt_data ctx x) = x :=
  decrypt_encrypt ctx x henc

/-- C7 witness: the round trip at the concrete email string. -/
theorem decrypt_encrypt_id_witness :
    ("a@b.com" : String) ≠ "" ∧
    (ctx0.cipher.encrypt "a@b.com").isSome = true ∧
    _decrypt_data ctx0 (_encrypt_data ctx0 "a@b.com") = "a@b.com" :=
  ⟨by decide, by decide, decrypt_encrypt_id ctx0 "a@b.com" (by decide) (by decide)⟩

/-- C8: deleting a session that has no stored record returns failure and
leaves the whole state — the audit log included — unchanged. -/
theorem delete_unknown_session (ctx : Ctx) (now : Int) (st : DHState)
    (session_id reason : String)
    (habs : findFile st.encDir (candidateFileName session_id) = none) :
    delete_candidate_data ctx now st session_id reason = (false, st) := by
  simp only [delete_candidate_data, habs]

/-- C8 witness: deleting a never-saved session id from the empty store. -/
theorem delete_unknown_session_witness :
    findFile emptyState.encDir (candidateFileName "zzz") = none ∧
    delete_candidate_data ctx0 0 emptyState "zzz" "user_request" =
      (false, emptyState) :=
  ⟨rfl, delete_unknown_session ctx0 0 emptyState "zzz" "user_request" rfl⟩

theorem save_success (ctx : Ctx) (now : Int) (st : DHState)
    (info : CandidateInfo) (session_id : String)
    (hist : List (String × String))
    (hw : ctx.writeFails ("encrypted/" ++ candidateFileName session_id) = false) :
    save_candidate_data ctx now st info session_id hist =
      (true,
        ⟨writeEnc st.encDir (candidateFileName session_id)
            (.valid (savedRecord ctx now info session_id hist)),
          st.exportsDir,
          logActivity ctx now st.log "SAVE" session_id
            (.saveMeta (!(info.full_name == "")) (!(info.email == ""))
              info.tech_stack.length)⟩) := by
  simp only [save_candidate_data, hw, Bool.false_eq_true, if_false]

/-- C1: saving a candidate record with all four identifying fields non-empty
and no transcript, then loading it back, reconstructs every field — the
identifying fields decrypt to their original values, the plaintext fields
are returned unchanged, and the stored completion status is `incomplete`. -/
theorem save_load_roundtrip (ctx : Ctx) (now tload : Int) (st : DHState)
    (info : CandidateInfo) (session_id : String)
    (hw : ctx.writeFails ("encrypted/" ++ candidateFileName session_id) = false)
    (h1 : info.full_name ≠ "") (h2 : info.email ≠ "")
    (h3 : info.phone ≠ "") (h4 : info.current_location ≠ "")
    (e1 : (ctx.cipher.encrypt info.full_name).isSome)
    (e2 : (ctx.cipher.encrypt info.email).isSome)
    (e3 : (ctx.cipher.encrypt info.phone).isSome)
    (e4 : (ctx.cipher.encrypt info.current_location).isSome) :
    (save_candidate_data ctx now st info session_id []).1 = true ∧
    (load_candidate_data ctx tload
        (save_candidate_data ctx now st info session_id []).2 session_id).1 =
      some
        { session_id := session_id
          timestamp := now
          data_version := "1.0"
          privacy_compliant := true
          candidate_info :=
            { full_name := some info.full_name
              email := some info.email
              phone := some info.phone
              current_location := some info.current_location
              years_experience := info.years_experience
              desired_positions := info.desired_positions
              tech_stack := info.tech_stack }
          privacy_hashes :=
            { email_hash := some (hash_email ctx info.email)
              phone_hash := some (hash_phone ctx info.phone) }
          completion_status := "incomplete"
          conversation_history := none } := by
  have hsave := save_success ctx now st info session_id [] hw
  refine ⟨by rw [hsave], ?_⟩
  have hload := load_valid ctx tload
    ⟨writeEnc st.encDir (candidateFileName session_id)
        (.valid (savedRecord ctx now info session_id [])),
      st.exportsDir,
      logActivity ctx now st.log "SAVE" session_id
        (.saveMeta (!(info.full_name == "")) (!(info.email == ""))
          info.tech_stack.length)⟩
    session_id
    ⟨candidateFileName session_id, .valid (savedRecord ctx now info session_id [])⟩
    (savedRecord ctx now info session_id [])
    (findFile_writeEnc _ _ _) rfl (by simp [savedRecord])
  rw [hsave]
  simp only [hload]
  refine congrArg some ?_
  simp only [savedRecord, if_neg h1, if_neg h2, if_neg h3, if_neg h4,
    decField_encrypt ctx info.full_name e1, decField_encrypt ctx info.email e2,
    decField_encrypt ctx info.phone e3,
    decField_encrypt ctx info.current_location e4]
  simp

/-- C1 witness: the round trip at the concrete record of the spec scenario
(email `a@b.com`, phone `555-123-4567`, experience `3`, tech stack
`Python, Docker`, no transcript). -/
theorem save_load_roundtrip_witness :
    ctx0.writeFails ("encrypted/" ++ candidateFileName "s") = false ∧
    infoSample.full_name ≠ "" ∧ infoSample.email ≠ "" ∧
    infoSample.phone ≠ "" ∧ infoSample.current_location ≠ "" ∧
    (ctx0.cipher.encrypt infoSample.full_name).isSome = true ∧
    (ctx0.cipher.encrypt infoSample.email).isSome = true ∧
    (ctx0.cipher.encrypt infoSample.phone).isSome = true ∧
    (ctx0.cipher.encrypt infoSample.current_location).isSome = true ∧
    (save_candidate_data ctx0 0 emptyState infoSample "s" []).1 = true ∧
    (load_candidate_data ctx0 1
        (save_candidate_data ctx0 0 emptyState infoSample "s" []).2 "s").1 =
      some
        { session_id := "s"
          timestamp := 0
          data_version := "1.0"
          privacy_compliant := true
          candidate_info :=
            { full_name := some infoSample.full_name
              email := some infoSample.email
              phone := some infoSample.phone
              current_location := some infoSample.current_location
              years_experience := infoSample.years_experience
              desired_positions := infoSample.desired_positions
              tech_stack := infoSample.tech_stack }
          privacy_hashes :=
            { email_hash := some (hash_email ctx0 infoSample.email)
              phone_hash := some (hash_phone ctx0 infoSample.phone) }
          completion_status := "incomplete"
          conversation_history := none } :=
  ⟨rfl, by decide, by decide, by decide, by decide, by decide, by decide,
    by decide, by decide,
    (save_load_roundtrip ctx0 0 1 emptyState infoSample "s" rfl (by decide)
      (by decide) (by decide) (by decide) (by decide) (by decide) (by decide)
      (by decide)).1,
    (save_load_roundtrip ctx0 0 1 emptyState infoSample "s" rfl (by decide)
      (by decide) (by decide) (by decide) (by decide) (by decide) (by decide)
      (by decide)).2⟩

def infoEmptyIds : CandidateInfo :=
  { full_name := ""
    email := ""
    phone := ""
    years_experience := "3"
    desired_positions := "Engineer"
    current_location := ""
    tech_stack := ["Python"] }

/-- C10: an identifying field that is the empty string is stored as null
(not encrypted), the email/phone hashes are stored as null when the
corresponding field is empty, and a subsequent load returns `None` for such
a field rather than the empty string. -/
theorem empty_fields_null (ctx : Ctx) (now tload : Int) (st : DHState)
    (info : CandidateInfo) (session_id : String)
    (hist : List (String × String))
    (hw : ctx.writeFails ("encrypted/" ++ candidateFileName session_id) = false) :
    (info.full_name = "" →
      (savedRecord ctx now info session_id hist).candidate_info.full_name_encrypted
        = none) ∧
    (info.email = "" →
      (savedRecord ctx now info session_id hist).candidate_info.email_encrypted
        = none ∧
      (savedRecord ctx now info session_id hist).privacy_hashes.email_hash = none) ∧
    (info.phone = "" →
      (savedRecord ctx now info session_id hist).candidate_info.phone_encrypted
        = none ∧
      (savedRecord ctx now info session_id hist).privacy_hashes.phone_hash = none) ∧
    (info.current_location = "" →
      (savedRecord ctx now info session_id hist).candidate_info.current_location_encrypted
        = none) ∧
    (∃ d, (load_candidate_data ctx tload
        (save_candidate_data ctx now st info session_id []).2 session_id).1 =
          some d ∧
      (info.full_name = "" → d.candidate_info.full_name = none) ∧
      (info.email = "" → d.candidate_info.email = none) ∧
      (info.phone = "" → d.candidate_info.phone = none) ∧
      (info.current_location = "" → d.candidate_info.current_location = none)) := by
  have hsave := save_success ctx now st info session_id [] hw
  have hload := load_valid ctx tload
    ⟨writeEnc st.encDir (candidateFileName session_id)
        (.valid (savedRecord ctx now info session_id [])),
      st.exportsDir,
      logActivity ctx now st.log "SAVE" session_id
        (.saveMeta (!(info.full_name == "")) (!(info.email == ""))
          info.tech_stack.length)⟩
    session_id
    ⟨candidateFileName session_id, .valid (savedRecord ctx now info session_id [])⟩
    (savedRecord ctx now info session_id [])
    (findFile_writeEnc _ _ _) rfl (by simp [savedRecord])
  refine ⟨fun h => by simp [savedRecord, h],
    fun h => ⟨by simp [savedRecord, h], by simp [savedRecord, h]⟩,
    fun h => ⟨by simp [savedRecord, h], by simp [savedRecord, h]⟩,
    fun h => by simp [savedRecord, h], ?_⟩
  rw [hsave]
  dsimp only
  simp only [hload]
  refine ⟨_, rfl, ?_, ?_, ?_, ?_⟩
  · intro h; simp [savedRecord, h, decField]
  · intro h; simp [savedRecord, h, decField]
  · intro h; simp [savedRecord, h, decField]
  · intro h; simp [savedRecord, h, decField]

/-- C10 witness: saving a record whose identifying fields are all empty
stores null for the email field and its hash, and loading it back yields
`None` for the email field. -/
theorem empty_fields_null_witness :
    ctx0.writeFails ("encrypted/" ++ candidateFileName "e") = false ∧
    (savedRecord ctx0 0 infoEmptyIds "e" []).candidate_info.email_encrypted
      = none ∧
    (savedRecord ctx0 0 infoEmptyIds "e" []).privacy_hashes.email_hash = none ∧
    ∃ d, (load_candidate_data ctx0 1
        (save_candidate_data ctx0 0 emptyState infoEmptyIds "e" []).2 "e").1 =
          some d ∧ d.candidate_info.email = none :=
  ⟨rfl,
    ((empty_fields_null ctx0 0 1 emptyState infoEmptyIds "e" [] rfl).2.1 rfl).1,
    ((empty_fields_null ctx0 0 1 emptyState infoEmptyIds "e" [] rfl).2.1 rfl).2,
    ((empty_fields_null ctx0 0 1 emptyState infoEmptyIds "e" [] rfl).2.2.2.2).elim
      (fun d hd => ⟨d, hd.1, hd.2.2.1 rfl⟩)⟩

/-- Specification-side characterization of a record file the retention
sweep removes: a candidate file that parses and whose embedded timestamp is
strictly older than the cutoff. -/
def isExpired (cutoff : Int) (f : EncFile) : Bool :=
  isCandidateFile f.name &&
    (match f.content with
     | .valid r => decide (r.timestamp < cutoff)
     | .corrupt => false)

theorem sweepEnc_spec (ctx : Ctx) (now cutoff retention_days : Int)
    (hrm : ∀ p, ctx.removeFails p = false) :
    ∀ (dir : List EncFile) (log : List LogEntry),
      (sweepEnc ctx now cutoff retention_days dir log).1 =
        (dir.filter (isExpired cutoff)).length ∧
      (sweepEnc ctx now cutoff retention_days dir log).2.1 =
        dir.filter (fun f => !isExpired cutoff f) := by
  intro dir
  induction dir with
  | nil => intro log; exact ⟨rfl, rfl⟩
  | cons f rest ih =>
      intro log
      by_cases hn : isCandidateFile f.name = true
      · cases hcont : f.content with
        | corrupt =>
            have hx : isExpired cutoff f = false := by
              simp [isExpired, hcont]
            have hrec := ih log
            constructor
            · simp only [sweepEnc, hn, if_true, hcont, List.filter_cons, hx,
                Bool.false_eq_true, if_false]
              exact hrec.1
            · simp only [sweepEnc, hn, if_true, hcont, List.filter_cons, hx,
                Bool.not_false, if_true]
              rw [hrec.2]
        | valid r =>
            by_cases ht : r.timestamp < cutoff
            · have hx : isExpired cutoff f = true := by
                simp [isExpired, hn, hcont, ht]
              have hrec := ih (logActivity ctx now log "AUTO_DELETE"
                r.session_id (.autoDeleteMeta retention_days (now - r.timestamp)))
              constructor
              · simp only [sweepEnc, hn, if_true, hcont, if_pos ht, hrm,
                  Bool.false_eq_true, if_false, List.filter_cons, hx]
                rw [hrec.1]
                simp
              · simp only [sweepEnc, hn, if_true, hcont, if_pos ht, hrm,
                  Bool.false_eq_true, if_false, List.filter_cons, hx,
                  Bool.not_true]
                exact hrec.2
            · have hx : isExpired cutoff f = false := by
                simp [isExpired, hcont, ht]
              have hrec := ih log
              constructor
              · simp only [sweepEnc, hn, if_true, hcont, if_neg ht,
                  List.filter_cons, hx, Bool.false_eq_true, if_false]
                exact hrec.1
              · simp only [sweepEnc, hn, if_true, hcont, if_neg ht,
                  List.filter_cons, hx, Bool.not_false, if_true]
                rw [hrec.2]
      · have hn' : isCandidateFile f.name = false := by
          simpa using hn
        have hx : isExpired cutoff f = false := by
          simp [isExpired, hn']
        have hrec := ih log
        constructor
        · simp only [sweepEnc, hn', Bool.false_eq_true, if_false,
            List.filter_cons, hx]
          exact hrec.1
        · simp only [sweepEnc, hn', Bool.false_eq_true, if_false,
            List.filter_cons, hx, Bool.not_false, if_true]
          rw [hrec.2]

/-- C2: with the filesystem healthy (no removal failures), the retention
sweep removes and counts exactly the parseable candidate records whose
embedded timestamp is strictly older than `now - retention_days`; newer
records and unparseable records are left untouched and uncounted, and
unparseable records do not abort the sweep. -/
theorem cleanup_removes_exactly (ctx : Ctx) (now : Int) (st : DHState)
    (retention_days : Int)
    (hrm : ∀ p, ctx.removeFails p = false) :
    (cleanup_old_data ctx now st retention_days).1 =
      (st.encDir.filter (isExpired (now - retention_days))).length ∧
    (cleanup_old_data ctx now st retention_days).2.encDir =
      st.encDir.filter (fun f => !isExpired (now - retention_days) f) := by
  have h := sweepEnc_spec ctx now (now - retention_days) retention_days hrm
    st.encDir st.log
  constructor
  · simp only [cleanup_old_data]
    exact h.1
  · simp only [cleanup_old_data]
    exact h.2

def rOld : StoredRecord := savedRecord ctx0 (-45) infoSample "old" []

def rNew : StoredRecord := savedRecord ctx0 (-10) infoSample "new" []

def stSweep : DHState :=
  { encDir :=
      [⟨candidateFileName "old", .valid rOld⟩,
        ⟨"candidate_bad.json", .corrupt⟩,
        ⟨candidateFileName "new", .valid rNew⟩]
    exportsDir := []
    log := [] }

/-- C2 witness: sweeping a 45-day-old record, a corrupt file and a
10-day-old record with a 30-day retention removes and counts exactly the
old record; the corrupt file and the fresh record survive. -/
theorem cleanup_removes_exactly_witness :
    (∀ p, ctx0.removeFails p = false) ∧
    (cleanup_old_data ctx0 0 stSweep 30).1 = 1 ∧
    (cleanup_old_data ctx0 0 stSweep 30).2.encDir =
      [⟨"candidate_bad.json", .corrupt⟩,
        ⟨candidateFileName "new", .valid rNew⟩] :=
  ⟨fun _ => rfl,
    by rw [(cleanup_removes_exactly ctx0 0 stSweep 30 (fun _ => rfl)).1]; decide,
    by rw [(cleanup_removes_exactly ctx0 0 stSweep 30 (fun _ => rfl)).2]; decide⟩

/-- Two record files agree on everything `get_privacy_report` may read:
same filename, and either both unparseable or both parseable with the same
cleartext `session_id` and `timestamp` metadata (the encrypted field
contents are unconstrained). -/
def sameCleartext (f g : EncFile) : Bool :=
  (f.name == g.name) &&
    (match f.content, g.content with
     | .valid r1, .valid r2 =>
         (r1.session_id == r2.session_id) && (r1.timestamp == r2.timestamp)
     | .corrupt, .corrupt => true
     | _, _ => false)

theorem forall2_report : ∀ l1 l2 : List EncFile,
    List.Forall₂ (fun f g => sameCleartext f g = true) l1 l2 →
    (l1.filter (fun f => strStartsWith f.name "candidate_")).length =
      (l2.filter (fun f => strStartsWith f.name "candidate_")).length ∧
    (l1.filter (fun f => strStartsWith f.name "candidate_")).filterMap
        (fun f => match f.content with
          | .valid r => some r.timestamp
          | .corrupt => none) =
      (l2.filter (fun f => strStartsWith f.name "candidate_")).filterMap
        (fun f => match f.content with
          | .valid r => some r.timestamp
          | .corrupt => none) := by
  intro l1 l2 h
  induction h with
  | nil => exact ⟨rfl, rfl⟩
  | cons hfg hrest ih =>
      rename_i f g t1 t2
      rw [sameCleartext, Bool.and_eq_true] at hfg
      have hname : f.name = g.name := by
        have h1 := hfg.1
        simpa using h1
      have h2 := hfg.2
      have hts : (match f.content with
          | .valid r => some r.timestamp
          | .corrupt => none) =
        (match g.content with
          | .valid r => some r.timestamp
          | .corrupt => none) := by
        cases hf : f.content with
        | valid r1 =>
            cases hg : g.content with
            | valid r2 =>
                rw [hf, hg] at h2
                simp only [Bool.and_eq_true, beq_iff_eq] at h2
                simp [h2.2]
            | corrupt => rw [hf, hg] at h2; simp at h2
        | corrupt =>
            cases hg : g.content with
            | valid r2 => rw [hf, hg] at h2; simp at h2
            | corrupt => rfl
      constructor
      · simp only [List.filter_cons, hname]
        cases hp : strStartsWith g.name "candidate_" with
        | true => simp [hp, ih.1]
        | false => simp [hp, ih.1]
      · simp only [List.filter_cons, hname]
        cases hp : strStartsWith g.name "candidate_" with
        | true => simp [hp, List.filterMap_cons, hts, ih.2]
        | false => simp [hp, ih.2]

/-- C9: the privacy report depends only on cleartext metadata — it takes no
cipher at all, and two stores whose record files differ only in the
contents of their encrypted fields (same filenames, same session ids, same
timestamps, same audit log) produce identical reports. -/
theorem report_ciphertext_independent (now : Int) (st1 st2 : DHState)
    (hlog : st1.log = st2.log)
    (hdir : List.Forall₂ (fun f g => sameCleartext f g = true)
      st1.encDir st2.encDir) :
    get_privacy_report now st1 = get_privacy_report now st2 := by
  have h := forall2_report st1.encDir st2.encDir hdir
  simp only [get_privacy_report, hlog]
  rw [h.1, h.2]

def rAlt : StoredRecord :=
  { sampleStored with
      candidate_info :=
        { sampleStored.candidate_info with
            full_name_encrypted := some "DIFFERENT" } }

def stA : DHState :=
  { encDir := [⟨candidateFileName "s", .valid sampleStored⟩]
    exportsDir := []
    log := [logEntry0] }

def stB : DHState :=
  { encDir := [⟨candidateFileName "s", .valid rAlt⟩]
    exportsDir := []
    log := [logEntry0] }

/-- C9 witness: two concrete stores whose single records differ only in an
encrypted field produce identical privacy reports. -/
theorem report_ciphertext_independent_witness :
    stA.log = stB.log ∧
    List.Forall₂ (fun f g => sameCleartext f g = true) stA.encDir stB.encDir ∧
    get_privacy_report 7 stA = get_privacy_report 7 stB :=
  ⟨rfl, List.Forall₂.cons (by decide) List.Forall₂.nil,
    report_ciphertext_independent 7 stA stB rfl
      (List.Forall₂.cons (by decide) List.Forall₂.nil)⟩

theorem delete_found (ctx : Ctx) (now : Int) (st : DHState)
    (session_id reason : String) (fl : EncFile)
    (hfind : findFile st.encDir (candidateFileName session_id) = some fl)
    (hrm : ctx.removeFails ("encrypted/" ++ candidateFileName session_id)
      = false) :
    delete_candidate_data ctx now st session_id reason =
      ((removeExports ctx session_id st.exportsDir).2,
        ⟨st.encDir.filter (fun f => f.name ≠ candidateFileName session_id),
          (removeExports ctx session_id st.exportsDir).1,
          logActivity ctx now st.log "DELETE" session_id
            (.deleteMeta reason)⟩) := by
  simp only [delete_candidate_data, hfind, hrm, Bool.false_eq_true, if_false]

/-- C3 counterexample: in a concrete store where the session's record
exists and its single export artifact cannot be removed, delete removes the
primary record but returns failure — refuting the claim that the call
returns success once the primary record has been removed. -/
theorem delete_export_failure_cex :
    ctxRemExpFail.removeFails "exports/export_s_1.json" = true ∧
    (delete_candidate_data ctxRemExpFail 0 stC3 "s" "user_request").1 = false ∧
    (delete_candidate_data ctxRemExpFail 0 stC3 "s" "user_request").2.encDir
      = [] := by
  refine ⟨by decide, by decide, by decide⟩

/-- C3 amended: when the record exists and its own removal succeeds, the
primary record is removed and a DELETE entry logged unconditionally, but
the call returns success exactly when the export-artifact removal loop
completes without a failure — a failing export removal raises into the
outer handler and the call returns failure even though the primary record
is gone. -/
theorem delete_primary_removed (ctx : Ctx) (now : Int) (st : DHState)
    (session_id reason : String) (fl : EncFile)
    (hfind : findFile st.encDir (candidateFileName session_id) = some fl)
    (hrm : ctx.removeFails ("encrypted/" ++ candidateFileName session_id)
      = false) :
    (delete_candidate_data ctx now st session_id reason).1 =
      (removeExports ctx session_id st.exportsDir).2 ∧
    (delete_candidate_data ctx now st session_id reason).2.encDir =
      st.encDir.filter (fun f => f.name ≠ candidateFileName session_id) ∧
    (delete_candidate_data ctx now st session_id reason).2.log =
      logActivity ctx now st.log "DELETE" session_id (.deleteMeta reason) := by
  rw [delete_found ctx now st session_id reason fl hfind hrm]
  exact ⟨rfl, rfl, rfl⟩

/-- C3 witness for the amended statement: with a healthy filesystem the
same concrete delete returns success, having removed record and export. -/
theorem delete_primary_removed_witness :
    findFile stC3.encDir (candidateFileName "s") =
      some ⟨candidateFileName "s", .valid sampleStored⟩ ∧
    ctx0.removeFails ("encrypted/" ++ candidateFileName "s") = false ∧
    (delete_candidate_data ctx0 0 stC3 "s" "user_request").1 =
      (removeExports ctx0 "s" stC3.exportsDir).2 ∧
    (delete_candidate_data ctx0 0 stC3 "s" "user_request").2.encDir =
      stC3.encDir.filter (fun f => f.name ≠ candidateFileName "s") ∧
    (delete_candidate_data ctx0 0 stC3 "s" "user_request").2.log =
      logActivity ctx0 0 stC3.log "DELETE" "s" (.deleteMeta "user_request") :=
  ⟨by decide, rfl,
    (delete_primary_removed ctx0 0 stC3 "s" "user_request"
      ⟨candidateFileName "s", .valid sampleStored⟩ (by decide) rfl).1,
    (delete_primary_removed ctx0 0 stC3 "s" "user_request"
      ⟨candidateFileName "s", .valid sampleStored⟩ (by decide) rfl).2.1,
    (delete_primary_removed ctx0 0 stC3 "s" "user_request"
      ⟨candidateFileName "s", .valid sampleStored⟩ (by decide) rfl).2.2⟩

def ctxWriteFail : Ctx := { ctx0 with writeFails := fun _ => true }

/-- C5 counterexample: with a cipher that raises on every encryption,
saving a record with a non-empty full name returns success and the
identifying field is stored unencrypted — refuting the claim that an
encryption failure yields a failure result rather than a success with the
field stored in the clear. -/
theorem save_encryption_failure_cex :
    ctxFail.cipher.encrypt infoSample.full_name = none ∧
    (save_candidate_data ctxFail 0 emptyState infoSample "s" []).1 = true ∧
    findFile (save_candidate_data ctxFail 0 emptyState infoSample "s" []).2.encDir
        (candidateFileName "s") =
      some ⟨candidateFileName "s", .valid (savedRecord ctxFail 0 infoSample "s" [])⟩ ∧
    (savedRecord ctxFail 0 infoSample "s" []).candidate_info.full_name_encrypted
      = some "John" := by
  refine ⟨rfl, by decide, by decide, by decide⟩

/-- C5 amended: save returns failure (without raising) when the record
write hits an I/O error, leaving the state unchanged; an encryption error
does not fail the save — the `_encrypt_data` fallback stores the affected
identifying field unencrypted and the call returns success. -/
theorem save_failure_semantics (ctx : Ctx) (now : Int) (st : DHState)
    (info : CandidateInfo) (session_id : String)
    (hist : List (String × String)) :
    (ctx.writeFails ("encrypted/" ++ candidateFileName session_id) = true →
      save_candidate_data ctx now st info session_id hist = (false, st)) ∧
    (ctx.writeFails ("encrypted/" ++ candidateFileName session_id) = false →
      (save_candidate_data ctx now st info session_id hist).1 = true) ∧
    (info.full_name ≠ "" → ctx.cipher.encrypt info.full_name = none →
      (savedRecord ctx now info session_id hist).candidate_info.full_name_encrypted
        = some info.full_name) := by
  refine ⟨fun hw => ?_, fun hw => ?_, fun hne henc => ?_⟩
  · simp only [save_candidate_data, hw, if_true]
  · rw [save_success ctx now st info session_id hist hw]
  · simp [savedRecord, if_neg hne, _encrypt_data, henc]

/-- C5 witness: the amended statement evaluated at concrete contexts — a
failing write yields a failure result with the state unchanged, and an
always-failing cipher yields a success result with the name stored in the
clear. -/
theorem save_failure_semantics_witness :
    ctxWriteFail.writeFails ("encrypted/" ++ candidateFileName "s") = true ∧
    save_candidate_data ctxWriteFail 0 emptyState infoSample "s" [] =
      (false, emptyState) ∧
    (save_candidate_data ctxFail 0 emptyState infoSample "s" []).1 = true ∧
    (savedRecord ctxFail 0 infoSample "s" []).candidate_info.full_name_encrypted
      = some infoSample.full_name :=
  ⟨rfl,
    (save_failure_semantics ctxWriteFail 0 emptyState infoSample "s" []).1 rfl,
    (save_failure_semantics ctxFail 0 emptyState infoSample "s" []).2.1 rfl,
    (save_failure_semantics ctxFail 0 emptyState infoSample "s" []).2.2
      (by decide) rfl⟩

theorem exportFileName_pfx (ctx : Ctx) (session_id : String) (t : Int) :
    strStartsWith (exportFileName ctx session_id t)
      ("export_" ++ session_id ++ "_") = true := by
  rw [strStartsWith, exportFileName]
  have hd : ("export_" ++ session_id ++ "_" ++ ctx.fmtTime t ++ ".json").data =
      ("export_" ++ session_id ++ "_").data ++
        ((ctx.fmtTime t).data ++ ".json".data) := by
    simp [String.data_append, List.append_assoc]
  rw [hd, List.isPrefixOf_iff_prefix]
  exact List.prefix_append _ _

theorem exportFileName_ne (ctx : Ctx) (session_id : String) (t1 t2 : Int)
    (hne : ctx.fmtTime t1 ≠ ctx.fmtTime t2) :
    exportFileName ctx session_id t1 ≠ exportFileName ctx session_id t2 := by
  intro h
  apply hne
  have hd := congrArg String.data h
  simp only [exportFileName, String.data_append, List.append_assoc] at hd
  have h1 := List.append_cancel_left hd
  have h2 := List.append_cancel_left h1
  have h3 := List.append_cancel_left h2
  have h4 := List.append_cancel_right h3
  exact String.ext h4

theorem writeExport_mem_self (dir : List ExportFile) (name : String)
    (m : Int) (c : ExportContent) :
    ∃ e ∈ writeExport dir name m c, e.name = name := by
  rw [writeExport]
  by_cases h : dir.any (fun f => f.name = name) = true
  · rw [if_pos h]
    rcases List.any_eq_true.mp h with ⟨x, hx, hxn⟩
    exact ⟨⟨name, m, c⟩,
      List.mem_map.mpr ⟨x, hx, by simp [of_decide_eq_true hxn]⟩, rfl⟩
  · rw [if_neg h]
    exact ⟨⟨name, m, c⟩, by simp, rfl⟩

theorem writeExport_mem_keep (dir : List ExportFile) (name : String)
    (m : Int) (c : ExportContent) (e : ExportFile) (he : e ∈ dir) :
    ∃ x ∈ writeExport dir name m c, x.name = e.name := by
  rw [writeExport]
  by_cases h : dir.any (fun f => f.name = name) = true
  · rw [if_pos h]
    by_cases hn : e.name = name
    · exact ⟨⟨name, m, c⟩, List.mem_map.mpr ⟨e, he, by simp [hn]⟩, hn.symm⟩
    · exact ⟨e, List.mem_map.mpr ⟨e, he, by simp [hn]⟩, rfl⟩
  · rw [if_neg h]
    exact ⟨e, by simp [he], rfl⟩

theorem removeExports_clean (ctx : Ctx) (session_id : String)
    (hrm : ∀ p, ctx.removeFails p = false) :
    ∀ dir : List ExportFile,
      removeExports ctx session_id dir =
        (dir.filter (fun f =>
          !strStartsWith f.name ("export_" ++ session_id ++ "_")), true) := by
  intro dir
  induction dir with
  | nil => rfl
  | cons f rest ih =>
      cases hp : strStartsWith f.name ("export_" ++ session_id ++ "_") with
      | true => simp [removeExports, hp, hrm, List.filter_cons, ih]
      | false => simp [removeExports, hp, List.filter_cons, ih]

theorem export_success (ctx : Ctx) (now : Int) (st : DHState)
    (session_id fmt : String) (fl : EncFile) (r : StoredRecord)
    (hfind : findFile st.encDir (candidateFileName session_id) = some fl)
    (hc : fl.content = .valid r)
    (hh : r.conversation_history_encrypted = none)
    (hw : ctx.writeFails ("exports/" ++ exportFileName ctx session_id now)
      = false) :
    export_candidate_data ctx now st session_id fmt =
      (some (exportFileName ctx session_id now),
        ⟨st.encDir,
          writeExport st.exportsDir (exportFileName ctx session_id now) now
            { exported_at := now
              session_id := session_id
              format := fmt
              personal_information :=
                { full_name := decField ctx r.candidate_info.full_name_encrypted
                  email := decField ctx r.candidate_info.email_encrypted
                  phone := decField ctx r.candidate_info.phone_encrypted
                  current_location :=
                    decField ctx r.candidate_info.current_location_encrypted
                  years_experience := r.candidate_info.years_experience
                  desired_positions := r.candidate_info.desired_positions
                  tech_stack := r.candidate_info.tech_stack }
              total_messages := 0
              completion_status := r.completion_status },
          logActivity ctx now
            (logActivity ctx now st.log "LOAD" session_id .empty)
            "EXPORT" session_id (.exportMeta fmt)⟩) := by
  have hload := load_valid ctx now st session_id fl r hfind hc hh
  simp only [export_candidate_data, hload, hw, Bool.false_eq_true, if_false]
  rfl

/-- C6 counterexample: exporting the same saved session twice at the same
clock reading (two calls within the same formatted-timestamp second)
produces the same filename, so the second write overwrites the first and a
single artifact remains — refuting per-call uniqueness of the export
artifact. -/
theorem export_same_time_cex :
    (export_candidate_data ctx0 5 stWithRecord "s" "json").1 =
      (export_candidate_data ctx0 5
        (export_candidate_data ctx0 5 stWithRecord "s" "json").2 "s" "json").1 ∧
    (export_candidate_data ctx0 5
        (export_candidate_data ctx0 5 stWithRecord "s" "json").2 "s"
        "json").2.exportsDir.length = 1 := by
  refine ⟨by decide, by decide⟩

/-- C6 amended: two exports of a saved session whose formatted timestamps
differ produce two distinct artifacts, both present afterwards, and a
subsequent delete (with a healthy filesystem) returns success, removes the
primary record, and removes every export artifact of that session — both
artifacts included.  (When the two formatted timestamps coincide, the
filename repeats and the second export overwrites the first.) -/
theorem export_twice_delete (ctx : Ctx) (t1 t2 t3 : Int) (st : DHState)
    (session_id fmt reason : String) (fl : EncFile) (r : StoredRecord)
    (hfind : findFile st.encDir (candidateFileName session_id) = some fl)
    (hc : fl.content = .valid r)
    (hh : r.conversation_history_encrypted = none)
    (hw1 : ctx.writeFails ("exports/" ++ exportFileName ctx session_id t1)
      = false)
    (hw2 : ctx.writeFails ("exports/" ++ exportFileName ctx session_id t2)
      = false)
    (hne : ctx.fmtTime t1 ≠ ctx.fmtTime t2)
    (hrm : ∀ p, ctx.removeFails p = false) :
    (export_candidate_data ctx t1 st session_id fmt).1 =
      some (exportFileName ctx session_id t1) ∧
    (export_candidate_data ctx t2
        (export_candidate_data ctx t1 st session_id fmt).2 session_id fmt).1 =
      some (exportFileName ctx session_id t2) ∧
    exportFileName ctx session_id t1 ≠ exportFileName ctx session_id t2 ∧
    (∃ e ∈ (export_candidate_data ctx t2
        (export_candidate_data ctx t1 st session_id fmt).2 session_id
        fmt).2.exportsDir, e.name = exportFileName ctx session_id t1) ∧
    (∃ e ∈ (export_candidate_data ctx t2
        (export_candidate_data ctx t1 st session_id fmt).2 session_id
        fmt).2.exportsDir, e.name = exportFileName ctx session_id t2) ∧
    (delete_candidate_data ctx t3
        (export_candidate_data ctx t2
          (export_candidate_data ctx t1 st session_id fmt).2 session_id
          fmt).2 session_id reason).1 = true ∧
    (∀ e ∈ (delete_candidate_data ctx t3
        (export_candidate_data ctx t2
          (export_candidate_data ctx t1 st session_id fmt).2 session_id
          fmt).2 session_id reason).2.exportsDir,
      e.name ≠ exportFileName ctx session_id t1 ∧
      e.name ≠ exportFileName ctx session_id t2) := by
  have he1 := export_success ctx t1 st session_id fmt fl r hfind hc hh hw1
  have hf2 : findFile (export_candidate_data ctx t1 st session_id fmt).2.encDir
      (candidateFileName session_id) = some fl := by
    rw [he1]
    exact hfind
  have he2 := export_success ctx t2
    (export_candidate_data ctx t1 st session_id fmt).2 session_id fmt fl r
    hf2 hc hh hw2
  have hnne := exportFileName_ne ctx session_id t1 t2 hne
  have hf3 : findFile (export_candidate_data ctx t2
      (export_candidate_data ctx t1 st session_id fmt).2 session_id
      fmt).2.encDir (candidateFileName session_id) = some fl := by
    rw [he2, he1]
    exact hfind
  have hdel := delete_found ctx t3
    (export_candidate_data ctx t2
      (export_candidate_data ctx t1 st session_id fmt).2 session_id fmt).2
    session_id reason fl hf3 (hrm _)
  have hclean := removeExports_clean ctx session_id hrm
  refine ⟨by rw [he1], by rw [he2], hnne, ?_, ?_, ?_, ?_⟩
  · rw [he2]
    have hm1 : ∃ e ∈ (export_candidate_data ctx t1 st session_id
        fmt).2.exportsDir, e.name = exportFileName ctx session_id t1 := by
      rw [he1]
      exact writeExport_mem_self _ _ _ _
    rcases hm1 with ⟨e, he, hename⟩
    rcases writeExport_mem_keep _ (exportFileName ctx session_id t2) t2 _ e he
      with ⟨x, hx, hxname⟩
    exact ⟨x, hx, by rw [hxname, hename]⟩
  · rw [he2]
    exact writeExport_mem_self _ _ _ _
  · rw [hdel, hclean]
  · intro e he
    rw [hdel] at he
    dsimp only at he
    rw [hclean] at he
    have hp := (List.mem_filter.mp he).2
    constructor
    · intro hn
      rw [hn, exportFileName_pfx] at hp
      simp at hp
    · intro hn
      rw [hn, exportFileName_pfx] at hp
      simp at hp

/-- C6 witness for the amended statement: two exports of the concrete saved
session at clock readings 5 and 6 yield two distinct filenames, and the
subsequent delete returns success. -/
theorem export_twice_delete_witness :
    ctx0.fmtTime 5 ≠ ctx0.fmtTime 6 ∧
    (export_candidate_data ctx0 5 stWithRecord "s" "json").1 =
      some (exportFileName ctx0 "s" 5) ∧
    (export_candidate_data ctx0 6
        (export_candidate_data ctx0 5 stWithRecord "s" "json").2 "s"
        "json").1 = some (exportFileName ctx0 "s" 6) ∧
    exportFileName ctx0 "s" 5 ≠ exportFileName ctx0 "s" 6 ∧
    (delete_candidate_data ctx0 7
        (export_candidate_data ctx0 6
          (export_candidate_data ctx0 5 stWithRecord "s" "json").2 "s"
          "json").2 "s" "user_request").1 = true :=
  ⟨by decide,
    (export_twice_delete ctx0 5 6 7 stWithRecord "s" "json" "user_request"
      ⟨candidateFileName "s", .valid sampleStored⟩ sampleStored (by decide)
      rfl (by decide) rfl rfl (by decide) (fun _ => rfl)).1,
    (export_twice_delete ctx0 5 6 7 stWithRecord "s" "json" "user_request"
      ⟨candidateFileName "s", .valid sampleStored⟩ sampleStored (by decide)
      rfl (by decide) rfl rfl (by decide) (fun _ => rfl)).2.1,
    (export_twice_delete ctx0 5 6 7 stWithRecord "s" "json" "user_request"
      ⟨candidateFileName "s", .valid sampleStored⟩ sampleStored (by decide)
      rfl (by decide) rfl rfl (by decide) (fun _ => rfl)).2.2.1,
    (export_twice_delete ctx0 5 6 7 stWithRecord "s" "json" "user_request"
      ⟨candidateFileName "s", .valid sampleStored⟩ sampleStored (by decide)
      rfl (by decide) rfl rfl (by decide) (fun _ => rfl)).2.2.2.2.2.1⟩

end TalentScout
